import Mathlib

/-!
Verification of the RewindOS television tracker (src/sfa_tracker2.py) against its
natural-language specification.  The Python functions are shallowly embedded as
executable Lean definitions; machine-level details that no claim depends on
(unicode character classes of the `re` module, the exact datetime rendering) are
modelled at the ASCII level or abstracted as an explicit function argument, as
noted at each definition.
-/

namespace SFA

/-- ASCII digit test, modelling the regex class backslash-d on the ASCII inputs in scope. -/
def isDigitC (c : Char) : Bool := c.isDigit

/-- ASCII word character, modelling the regex class backslash-w (letters, digits, underscore). -/
def isWordC (c : Char) : Bool := c.isAlpha || c.isDigit || c == '_'

/-- ASCII whitespace, modelling the regex class backslash-s. -/
def isSpaceC (c : Char) : Bool :=
  c == ' ' || c == '\t' || c == '\n' || c == '\r' || c == '\x0b' || c == '\x0c'

/-- Maximal digit run at the front of the list, with the remainder. -/
def takeDigits (l : List Char) : List Char × List Char :=
  (l.takeWhile isDigitC, l.dropWhile isDigitC)

/-- Skip a (maximal) whitespace run, modelling a greedy backslash-s star whose
follower cannot match whitespace. -/
def dropSpaces (l : List Char) : List Char := l.dropWhile isSpaceC

/-- Word-boundary test before a position whose character is a word character:
the previous character must be absent or a non-word character. -/
def atBoundary : Option Char → Bool
  | none => true
  | some c => !isWordC c

/-- Word-boundary test after a word character: the rest must be empty or start
with a non-word character. -/
def endBoundary : List Char → Bool
  | [] => true
  | c :: _ => !isWordC c

/-- A captured digit group of the form backslash-d repeated once or twice: the
maximal digit run must have length 1 or 2 (a longer run cannot match, because
backtracking to a shorter prefix leaves a digit in front of the follower). -/
def grpLenOk (d : List Char) : Bool := d.length == 1 || d.length == 2

/-- Tail of pattern 1 after the `[xX]`: optional spaces, a 1-2 digit group, and a
trailing word boundary. -/
def p1Tail (d1 : List Char) (r : List Char) : Option (List Char × List Char) :=
  let (d2, r2) := takeDigits (dropSpaces r)
  if grpLenOk d2 && endBoundary r2 then some (d1, d2) else none

/-- Attempt of EP_PATTERNS[0] at one position: the season-x-episode regex
from src/sfa_tracker2.py line 128. -/
def matchP1At (prev : Option Char) (l : List Char) : Option (List Char × List Char) :=
  if atBoundary prev then
    let (d1, r1) := takeDigits l
    if grpLenOk d1 then
      match dropSpaces r1 with
      | c :: r2 => if c == 'x' || c == 'X' then p1Tail d1 r2 else none
      | [] => none
    else none
  else none

/-- Leftmost search for EP_PATTERNS[0], scanning positions left to right while
tracking the previous character for the word-boundary assertion. -/
def searchP1Aux : Option Char → List Char → Option (List Char × List Char)
  | prev, [] => matchP1At prev []
  | prev, c :: rest =>
    match matchP1At prev (c :: rest) with
    | some g => some g
    | none => searchP1Aux (some c) rest

/-- `re.search` for EP_PATTERNS[0] returning the two digit groups. -/
def searchP1 (l : List Char) : Option (List Char × List Char) := searchP1Aux none l

/-- Attempt of EP_PATTERNS[1] at one position: the SnnEnn regex from
src/sfa_tracker2.py line 130. -/
def matchP2At (prev : Option Char) (l : List Char) : Option (List Char × List Char) :=
  if atBoundary prev then
    match l with
    | c :: r =>
      if c == 'S' || c == 's' then
        let (d1, r1) := takeDigits r
        if grpLenOk d1 then
          match dropSpaces r1 with
          | e :: r2 =>
            if e == 'E' || e == 'e' then
              let (d2, r3) := takeDigits r2
              if grpLenOk d2 && endBoundary r3 then some (d1, d2) else none
            else none
          | [] => none
        else none
      else none
    | [] => none
  else none

/-- Leftmost search for EP_PATTERNS[1]. -/
def searchP2Aux : Option Char → List Char → Option (List Char × List Char)
  | prev, [] => matchP2At prev []
  | prev, c :: rest =>
    match matchP2At prev (c :: rest) with
    | some g => some g
    | none => searchP2Aux (some c) rest

/-- `re.search` for EP_PATTERNS[1] returning the two digit groups. -/
def searchP2 (l : List Char) : Option (List Char × List Char) := searchP2Aux none l

/-- Case-insensitive literal prefix stripping (the pattern is given lower-case). -/
def stripCI : List Char → List Char → Option (List Char)
  | [], l => some l
  | _ :: _, [] => none
  | p :: ps, c :: cs => if c.toLower == p then stripCI ps cs else none

/-- Tail of EP_PATTERNS[2] after the literal alternation: an optional dot
(greedy, with backtracking), optional spaces, a 1-2 digit group, and a trailing
word boundary. -/
def p3Tail (r : List Char) : Option (List Char) :=
  let attempt := fun (s : List Char) =>
    let (d, r2) := takeDigits (dropSpaces s)
    if grpLenOk d && endBoundary r2 then some d else none
  match r with
  | '.' :: r2 =>
    match attempt r2 with
    | some d => some d
    | none => attempt r
  | _ => attempt r

/-- Attempt of EP_PATTERNS[2] at one position: the case-insensitive
episode-only regex from src/sfa_tracker2.py line 132, trying the alternative
`episode` before `ep` as the `re` module does. -/
def matchP3At (prev : Option Char) (l : List Char) : Option (List Char) :=
  if atBoundary prev then
    match stripCI ['e', 'p', 'i', 's', 'o', 'd', 'e'] l with
    | some r =>
      match p3Tail r with
      | some d => some d
      | none =>
        match stripCI ['e', 'p'] l with
        | some r2 => p3Tail r2
        | none => none
    | none =>
      match stripCI ['e', 'p'] l with
      | some r2 => p3Tail r2
      | none => none
  else none

/-- Leftmost search for EP_PATTERNS[2]. -/
def searchP3Aux : Option Char → List Char → Option (List Char)
  | prev, [] => matchP3At prev []
  | prev, c :: rest =>
    match matchP3At prev (c :: rest) with
    | some g => some g
    | none => searchP3Aux (some c) rest

/-- `re.search` for EP_PATTERNS[2] returning the digit group. -/
def searchP3 (l : List Char) : Option (List Char) := searchP3Aux none l

/-- Python `str.lower` restricted to ASCII. -/
def lowerS (s : String) : String := String.mk (s.data.map Char.toLower)

/-- Does `needle` occur at the front of `hay`? -/
def atFront : List Char → List Char → Bool
  | [], _ => true
  | _ :: _, [] => false
  | a :: as, b :: bs => a == b && atFront as bs

/-- Index of the first occurrence of the needle, as in Python `str.find`. -/
def findSubAux (needle : List Char) : List Char → Nat → Option Nat
  | [], i => if atFront needle [] then some i else none
  | c :: rest, i =>
    if atFront needle (c :: rest) then some i else findSubAux needle rest (i + 1)

/-- Python `str.find`: first index of the needle, or -1. -/
def strFind (hay needle : String) : Int :=
  match findSubAux needle.data hay.data 0 with
  | some i => (i : Int)
  | none => -1

/-- Python `needle in hay` substring test. -/
def containsS (hay needle : String) : Bool := strFind hay needle != -1

/-- The `pattern` attribute of EP_PATTERNS[0] as Python stores it. -/
def pat1String : String := "\\b(\\d\x7b1,2\x7d)\\s*[xX]\\s*(\\d\x7b1,2\x7d)\\b"

/-- The `pattern` attribute of EP_PATTERNS[1]. -/
def pat2String : String := "\\b[Ss](\\d\x7b1,2\x7d)\\s*[Ee](\\d\x7b1,2\x7d)\\b"

/-- The `pattern` attribute of EP_PATTERNS[2]. -/
def pat3String : String := "\\b(?:episode|ep)\\.?\\s*(\\d\x7b1,2\x7d)\\b"

/-- The season/episode branch test of `extract_episode_code`
(src/sfa_tracker2.py line 148), exactly as written: it lower-cases the pattern
string and then searches it for the mixed-case literal `[xX]`. -/
def isSeasonEpPattern (pat : String) : Bool :=
  (strFind (lowerS pat) "[xX]" != -1) || containsS pat "Ss" || containsS pat "Ee"

/-- Digit list to number, as Python `int` on a digit string. -/
def digitsToNat (l : List Char) : Nat := l.foldl (fun a c => 10 * a + (c.toNat - 48)) 0

/-- Python `f"{n:02d}"` for the 0-99 values in scope. -/
def pad2 (n : Nat) : String := if n < 10 then "0" ++ toString n else toString n

/-- Python `f"{season}x{ep:02d}"`. -/
def fmtSeasonEp (s e : List Char) : String :=
  toString (digitsToNat s) ++ "x" ++ pad2 (digitsToNat e)

/-- Python `f"E{ep_only:02d}"`. -/
def fmtEpOnly (g : List Char) : String := "E" ++ pad2 (digitsToNat g)

/-- `extract_episode_code` (src/sfa_tracker2.py lines 136-158): the patterns are
tried in order; the first match returns either the season/episode format or the
episode-only format depending on `isSeasonEpPattern` applied to the pattern
string.  For EP_PATTERNS[2] the season branch would read a second group that
the pattern does not have (a Python error); the branch test is decidably false
there, so that dead branch is modelled as `none`. -/
def extract_episode_code (title : String) : Option String :=
  match searchP1 title.data with
  | some g => some (if isSeasonEpPattern pat1String then fmtSeasonEp g.1 g.2 else fmtEpOnly g.1)
  | none =>
    match searchP2 title.data with
    | some g => some (if isSeasonEpPattern pat2String then fmtSeasonEp g.1 g.2 else fmtEpOnly g.1)
    | none =>
      match searchP3 title.data with
      | some g => if isSeasonEpPattern pat3String then none else some (fmtEpOnly g)
      | none => none

/-- The `TRAILER_KEYWORDS` list (src/sfa_tracker2.py lines 65-70). -/
def TRAILER_KEYWORDS : List String :=
  ["official trailer", "teaser trailer", "trailer", "teaser"]

/-- Python `str.strip` with the double-quote character as argument. -/
def stripQuotes (s : String) : String :=
  String.mk (((s.data.dropWhile (fun c => c == '"')).reverse.dropWhile
    (fun c => c == '"')).reverse)

/-- The environment-derived show configuration (`SHOW_NAME`, `QUERY_TERMS`). -/
structure Config where
  show_name : String
  query_terms : List String
deriving DecidableEq

/-- `looks_like_trailer` (src/sfa_tracker2.py lines 161-169). -/
def looks_like_trailer (cfg : Config) (title : String) : Bool :=
  let t := lowerS title
  let show_hit := containsS t (lowerS cfg.show_name) ||
    cfg.query_terms.any (fun q => (q != "") && containsS t (lowerS (stripQuotes q)))
  if !show_hit then false
  else TRAILER_KEYWORDS.any (fun k => containsS t k)

/-- Python truthiness of an optional string (`None` and the empty string are falsy). -/
def optStrTruthy : Option String → Bool
  | none => false
  | some s => s != ""

/-- The `Post` dataclass (src/sfa_tracker2.py lines 175-189).  Integer fields
use `Int`, Python's arbitrary-precision integers. -/
structure Post where
  id : String
  name : String
  subreddit : String
  created_utc : Int
  created_iso : String
  title : String
  permalink : String
  url : String
  author : String
  score : Int
  num_comments : Int
  episode_code : Option String
  is_trailer : Bool
deriving DecidableEq

/-- The sort key `(p.num_comments, p.score)` used by the selection logic. -/
def keyPair (p : Post) : Int × Int := (p.num_comments, p.score)

/-- Python's lexicographic order on integer pairs. -/
def lexLE (a b : Int × Int) : Prop := a.1 < b.1 ∨ (a.1 = b.1 ∧ a.2 ≤ b.2)

instance (a b : Int × Int) : Decidable (lexLE a b) := by
  unfold lexLE
  infer_instance

theorem lexLE_total (a b : Int × Int) : lexLE a b ∨ lexLE b a := by
  unfold lexLE
  omega

theorem lexLE_trans {a b c : Int × Int} (h1 : lexLE a b) (h2 : lexLE b c) : lexLE a c := by
  unfold lexLE at *
  omega

/-- The descending comparison realised by Python's stable
`sorted(..., key=lambda p: (p.num_comments, p.score), reverse=True)`:
`p` may come before `q` exactly when the key of `q` is lexicographically at
most the key of `p`. -/
def commentsGE (p q : Post) : Prop := lexLE (keyPair q) (keyPair p)

instance : DecidableRel commentsGE := fun p q => by
  unfold commentsGE
  infer_instance

instance : IsTotal Post commentsGE where
  total p q := by
    unfold commentsGE
    exact (lexLE_total (keyPair p) (keyPair q)).symm

instance : IsTrans Post commentsGE where
  trans _ _ _ h1 h2 := lexLE_trans h2 h1

/-- `pick_trailer` (src/sfa_tracker2.py lines 346-351): filter the
trailer-flagged posts and return the head of the stable descending sort, or
`None` when there are none.  `List.insertionSort` is stable, hence
extensionally equal to Python's `sorted` for this comparison. -/
def pick_trailer (posts : List Post) : Option Post :=
  let trailers := posts.filter (fun p => p.is_trailer)
  if trailers.isEmpty then none
  else (List.insertionSort commentsGE trailers).head?

/-- `pick_other_posts` (src/sfa_tracker2.py lines 361-365): keep posts with a
falsy episode code and no trailer flag, sort descending, take the first `n`. -/
def pick_other_posts (posts : List Post) (n : Nat) : List Post :=
  let candidates := posts.filter (fun p => !optStrTruthy p.episode_code && !p.is_trailer)
  (List.insertionSort commentsGE candidates).take n

theorem lexLE_refl (a : Int × Int) : lexLE a a := Or.inr ⟨rfl, le_refl _⟩

theorem sorted_head_spec (l : List Post) :
    ((if l.isEmpty then none else (List.insertionSort commentsGE l).head?) = none ↔ l = []) ∧
    ∀ p, (if l.isEmpty then none else (List.insertionSort commentsGE l).head?) = some p →
      p ∈ l ∧ ∀ q ∈ l, lexLE (keyPair q) (keyPair p) := by
  by_cases h : l.isEmpty
  · rw [List.isEmpty_iff] at h
    subst h
    simp
  · have hne : l ≠ [] := by
      intro hnil
      rw [hnil] at h
      simp at h
    have hperm := List.perm_insertionSort commentsGE l
    have hsorted : List.Sorted commentsGE (List.insertionSort commentsGE l) :=
      List.sorted_insertionSort commentsGE l
    rcases hs : List.insertionSort commentsGE l with _ | ⟨hd, rest⟩
    · rw [hs] at hperm
      exact absurd (hperm.symm.eq_nil) hne
    · rw [hs] at hperm hsorted
      simp only [h, if_neg, Bool.false_eq_true, not_false_iff, List.head?_cons]
      constructor
      · simp [hne]
      · intro p hp
        rw [Option.some.injEq] at hp
        subst hp
        constructor
        · exact hperm.mem_iff.mp (List.mem_cons_self _ _)
        · intro q hq
          rcases List.mem_cons.mp (hperm.mem_iff.mpr hq) with hq1 | hq2
          · subst hq1
            exact lexLE_refl _
          · exact List.rel_of_sorted_cons hsorted q hq2

/-- C7: `pick_trailer` returns `None` exactly when no post is trailer-flagged;
otherwise it returns a trailer-flagged post of the input whose
(num_comments, score) pair is lexicographically maximal among the
trailer-flagged posts. -/
theorem pick_trailer_spec (posts : List Post) :
    (pick_trailer posts = none ↔ ∀ p ∈ posts, p.is_trailer = false) ∧
    (∀ p, pick_trailer posts = some p →
      p ∈ posts ∧ p.is_trailer = true ∧
      ∀ q ∈ posts, q.is_trailer = true → lexLE (keyPair q) (keyPair p)) := by
  have H := sorted_head_spec (posts.filter (fun p => p.is_trailer))
  constructor
  · have h1 : pick_trailer posts = none ↔ posts.filter (fun p => p.is_trailer) = [] := H.1
    rw [h1, List.filter_eq_nil_iff]
    constructor
    · intro h p hp
      simpa using h p hp
    · intro h p hp
      simpa using h p hp
  · intro p hp
    have h2 := H.2 p hp
    rw [List.mem_filter] at h2
    refine ⟨h2.1.1, h2.1.2, ?_⟩
    intro q hq hqt
    exact h2.2 q (List.mem_filter.mpr ⟨hq, hqt⟩)

/-- C8: `pick_other_posts` returns at most `n` posts; each is a non-trailer
post of the input with a falsy episode code; the returned list is sorted
descending by (num_comments, score); and together with some remainder it is a
permutation of all candidates, every dropped candidate ranking no higher than
every kept one. -/
theorem pick_other_posts_spec (posts : List Post) (n : Nat) :
    (pick_other_posts posts n).length ≤ n ∧
    (∀ p ∈ pick_other_posts posts n,
      p ∈ posts ∧ optStrTruthy p.episode_code = false ∧ p.is_trailer = false) ∧
    List.Sorted commentsGE (pick_other_posts posts n) ∧
    ∃ rest, (pick_other_posts posts n ++ rest).Perm
        (posts.filter (fun p => !optStrTruthy p.episode_code && !p.is_trailer)) ∧
      ∀ p ∈ pick_other_posts posts n, ∀ q ∈ rest, lexLE (keyPair q) (keyPair p) := by
  unfold pick_other_posts
  have hsorted : List.Sorted commentsGE
      (List.insertionSort commentsGE
        (posts.filter (fun p => !optStrTruthy p.episode_code && !p.is_trailer))) :=
    List.sorted_insertionSort commentsGE _
  refine ⟨?_, ?_, ?_, ?_⟩
  · rw [List.length_take]
    exact min_le_left _ _
  · intro p hp
    have hmem := List.mem_of_mem_take hp
    rw [List.mem_insertionSort, List.mem_filter] at hmem
    refine ⟨hmem.1, ?_, ?_⟩
    · have := hmem.2
      simp only [Bool.and_eq_true, Bool.not_eq_true'] at this
      exact this.1
    · have := hmem.2
      simp only [Bool.and_eq_true, Bool.not_eq_true'] at this
      exact this.2
  · exact List.Pairwise.sublist (List.take_sublist n _) hsorted
  · refine ⟨(List.insertionSort commentsGE
      (posts.filter (fun p => !optStrTruthy p.episode_code && !p.is_trailer))).drop n, ?_, ?_⟩
    · rw [List.take_append_drop]
      exact List.perm_insertionSort commentsGE _
    · intro p hp q hq
      have hpw : List.Pairwise commentsGE
          (List.insertionSort commentsGE
            (posts.filter (fun p => !optStrTruthy p.episode_code && !p.is_trailer))) := hsorted
      rw [← List.take_append_drop n (List.insertionSort commentsGE
        (posts.filter (fun p => !optStrTruthy p.episode_code && !p.is_trailer))),
        List.pairwise_append] at hpw
      exact hpw.2.2 p hp q hq

/-- Does a CSV field need quoting under the csv module's default QUOTE_MINIMAL
dialect (field contains the delimiter, the quote character, or a line-end)? -/
def csvNeedsQuote (s : String) : Bool :=
  s.data.any (fun c => c == ',' || c == '"' || c == '\r' || c == '\n')

/-- Quote a CSV field, doubling embedded quote characters. -/
def csvQuote (s : String) : String :=
  "\"" ++ String.join (s.data.map (fun c => if c == '"' then "\"\"" else String.mk [c])) ++ "\""

/-- One CSV field as the csv module renders it. -/
def csvField (s : String) : String := if csvNeedsQuote s then csvQuote s else s

/-- One CSV record: comma-separated fields, CRLF-terminated (the csv module's
default lineterminator). -/
def csvRowOfFields (fs : List String) : String :=
  String.intercalate "," (fs.map csvField) ++ "\r\n"

/-- The history-file field names (src/sfa_tracker2.py lines 312-316). -/
def historyFieldNames : List String :=
  ["snapshot_utc", "post_id", "post_name", "subreddit", "episode_code",
   "is_episode", "is_trailer", "title", "permalink", "num_comments"]

/-- The field values of one history row for a post (src/sfa_tracker2.py lines
329-340), in the DictWriter's field order. -/
def historyFields (snapshot : String) (p : Post) : List String :=
  [snapshot, p.id, p.name, p.subreddit, p.episode_code.getD "",
   if optStrTruthy p.episode_code then "1" else "0",
   if p.is_trailer then "1" else "0",
   p.title, p.permalink, toString p.num_comments]

/-- One rendered history row. -/
def historyRow (snapshot : String) (p : Post) : String :=
  csvRowOfFields (historyFields snapshot p)

/-- `ensure_history_header` (src/sfa_tracker2.py lines 308-317) acting on the
file state, modelled as `Option String` (`none` = the file does not exist):
an existing file is left untouched, otherwise the header row is written. -/
def ensure_history_header : Option String → String
  | some content => content
  | none => csvRowOfFields historyFieldNames

/-- `append_history` (src/sfa_tracker2.py lines 320-340) acting on the file
state: ensure the header, then append one row per post in order. -/
def append_history (snapshot : String) (posts : List Post) (file : Option String) : String :=
  posts.foldl (fun acc p => acc ++ historyRow snapshot p) (ensure_history_header file)

theorem string_join_cons (s : String) (l : List String) :
    String.join (s :: l) = s ++ String.join l := by
  apply String.ext
  simp

theorem foldl_append_rows (f : Post → String) :
    ∀ (l : List Post) (base : String),
      l.foldl (fun acc p => acc ++ f p) base = base ++ String.join (l.map f) := by
  intro l
  induction l with
  | nil =>
    intro base
    apply String.ext
    simp [String.join]
  | cons a t ih =>
    intro base
    rw [List.foldl_cons, ih, List.map_cons, string_join_cons, String.append_assoc]

/-- C9: appending history preserves an existing file's content as a prefix and
appends exactly one CSV row per post, each carrying the snapshot timestamp,
the post id and the current comment count among its fields; when the file is
missing, the header row is written first. -/
theorem append_history_spec (snapshot : String) (posts : List Post) :
    (∀ content : String,
      append_history snapshot posts (some content) =
        content ++ String.join (posts.map (historyRow snapshot))) ∧
    (append_history snapshot posts none =
      csvRowOfFields historyFieldNames ++ String.join (posts.map (historyRow snapshot))) ∧
    (posts.map (historyRow snapshot)).length = posts.length ∧
    ∀ p ∈ posts, historyRow snapshot p =
      csvRowOfFields [snapshot, p.id, p.name, p.subreddit, p.episode_code.getD "",
        if optStrTruthy p.episode_code then "1" else "0",
        if p.is_trailer then "1" else "0",
        p.title, p.permalink, toString p.num_comments] := by
  refine ⟨?_, ?_, ?_, ?_⟩
  · intro content
    exact foldl_append_rows (historyRow snapshot) posts content
  · exact foldl_append_rows (historyRow snapshot) posts (csvRowOfFields historyFieldNames)
  · simp
  · intro p _
    rfl

/-- One HTTP response as `request_json` inspects it.  The body stands for the
already-parsed JSON payload (the claims do not concern JSON decoding itself). -/
structure Resp where
  status : Nat
  retry_after : Option String
  content_type : Option String
  body : String
deriving DecidableEq

/-- The four ways the `request_json` loop can end: a returned payload, an
`HTTPError` from `raise_for_status`, the `ValueError` for a non-JSON
content type, or the `RuntimeError` after the retries are exhausted. -/
inductive ReqOutcome where
  | ok (body : String)
  | httpError (status : Nat)
  | valueError (ct : String)
  | retriesExhausted
deriving DecidableEq

/-- Python `retry_after and retry_after.isdigit()` for an ASCII string:
non-empty and all digits. -/
def allDigits (s : String) : Bool := (s != "") && s.data.all isDigitC

/-- The wait chosen on a 429 (src/sfa_tracker2.py line 213). -/
def waitFor429 (r : Resp) (attempt : Nat) : Nat :=
  match r.retry_after with
  | some ra => if allDigits ra then digitsToNat ra.data else min 60 (2 ^ attempt)
  | none => min 60 (2 ^ attempt)

/-- The exponential backoff wait (src/sfa_tracker2.py line 219). -/
def backoff (attempt : Nat) : Nat := min 60 (2 ^ attempt)

/-- The non-retry tail of the loop body: `raise_for_status` (an `HTTPError`
for the remaining 4xx statuses), then the content-type check, then the
return of the payload (src/sfa_tracker2.py lines 224-230). -/
def terminalStep (r : Resp) : ReqOutcome × List Nat × Nat :=
  if 400 ≤ r.status ∧ r.status < 600 then (.httpError r.status, [], 1)
  else if !containsS (lowerS (r.content_type.getD "")) "json" then
    (.valueError (lowerS (r.content_type.getD "")), [], 1)
  else (.ok r.body, [], 1)

/-- The body of the `request_json` retry loop over a list of attempt numbers.
`responses` maps each attempt number to the response the server returns for
it.  The result carries the outcome, the list of waits slept, and the number
of requests issued. -/
def runAttempts (responses : Nat → Resp) : List Nat → ReqOutcome × List Nat × Nat
  | [] => (.retriesExhausted, [], 0)
  | attempt :: rest =>
    if (responses attempt).status = 429 then
      ((runAttempts responses rest).1,
       waitFor429 (responses attempt) attempt :: (runAttempts responses rest).2.1,
       (runAttempts responses rest).2.2 + 1)
    else if 500 ≤ (responses attempt).status ∧ (responses attempt).status < 600 then
      ((runAttempts responses rest).1,
       backoff attempt :: (runAttempts responses rest).2.1,
       (runAttempts responses rest).2.2 + 1)
    else terminalStep (responses attempt)

/-- `request_json` (src/sfa_tracker2.py lines 207-232): the loop runs the
attempt numbers `1, ..., max_retries` as `range(1, max_retries + 1)` does. -/
def request_json (responses : Nat → Resp) (max_retries : Nat) : ReqOutcome × List Nat × Nat :=
  runAttempts responses (List.range' 1 max_retries)

/-- A response that sends the loop around again: HTTP 429 or any 5xx. -/
def retryable (r : Resp) : Prop := r.status = 429 ∨ (500 ≤ r.status ∧ r.status < 600)

instance (r : Resp) : Decidable (retryable r) := by
  unfold retryable
  infer_instance

/-- The wait the code performs for a retryable response at a given attempt. -/
def expectedWait (r : Resp) (attempt : Nat) : Nat :=
  if r.status = 429 then waitFor429 r attempt else backoff attempt

theorem runAttempts_cons_retry (responses : Nat → Resp) (a : Nat) (rest : List Nat)
    (h : retryable (responses a)) :
    runAttempts responses (a :: rest) =
      ((runAttempts responses rest).1,
       expectedWait (responses a) a :: (runAttempts responses rest).2.1,
       (runAttempts responses rest).2.2 + 1) := by
  rcases h with h429 | h5xx
  · simp only [runAttempts]
    rw [if_pos h429]
    unfold expectedWait
    rw [if_pos h429]
  · have hne : ¬(responses a).status = 429 := by omega
    simp only [runAttempts]
    rw [if_neg hne, if_pos h5xx]
    unfold expectedWait
    rw [if_neg hne]

theorem runAttempts_cons_terminal (responses : Nat → Resp) (a : Nat) (rest : List Nat)
    (h : ¬retryable (responses a)) :
    runAttempts responses (a :: rest) = terminalStep (responses a) := by
  have h429 : ¬(responses a).status = 429 := fun hc => h (Or.inl hc)
  have h5xx : ¬(500 ≤ (responses a).status ∧ (responses a).status < 600) :=
    fun hc => h (Or.inr hc)
  simp only [runAttempts]
  rw [if_neg h429, if_neg h5xx]

theorem terminalStep_shape (r : Resp) :
    (terminalStep r).1 ≠ .retriesExhausted ∧ (terminalStep r).2.1 = [] ∧
      (terminalStep r).2.2 = 1 := by
  unfold terminalStep
  by_cases h4 : 400 ≤ r.status ∧ r.status < 600
  · rw [if_pos h4]
    exact ⟨fun hc => ReqOutcome.noConfusion hc, rfl, rfl⟩
  · rw [if_neg h4]
    by_cases hct : (!containsS (lowerS (r.content_type.getD "")) "json") = true
    · rw [if_pos hct]
      exact ⟨fun hc => ReqOutcome.noConfusion hc, rfl, rfl⟩
    · rw [if_neg hct]
      exact ⟨fun hc => ReqOutcome.noConfusion hc, rfl, rfl⟩

theorem runAttempts_spec (responses : Nat → Resp) :
    ∀ (m a : Nat), ∃ k, k ≤ m ∧
      (∀ i, a ≤ i → i < a + k → retryable (responses i)) ∧
      (runAttempts responses (List.range' a m)).2.1 =
        (List.range' a k).map (fun i => expectedWait (responses i) i) ∧
      ((k = m ∧ (runAttempts responses (List.range' a m)).1 = .retriesExhausted ∧
          (runAttempts responses (List.range' a m)).2.2 = m) ∨
       (k < m ∧ ¬retryable (responses (a + k)) ∧
          (runAttempts responses (List.range' a m)).1 ≠ .retriesExhausted ∧
          (runAttempts responses (List.range' a m)).2.2 = k + 1)) := by
  intro m
  induction m with
  | zero =>
    intro a
    refine ⟨0, le_refl 0, ?_, ?_, Or.inl ⟨rfl, rfl, rfl⟩⟩
    · intro i h1 h2
      omega
    · rfl
  | succ m ih =>
    intro a
    rw [List.range'_succ]
    by_cases hr : retryable (responses a)
    · obtain ⟨k, hk, hret, hws, hend⟩ := ih (a + 1)
      rw [runAttempts_cons_retry responses a _ hr]
      refine ⟨k + 1, by omega, ?_, ?_, ?_⟩
      · intro i h1 h2
        rcases Nat.eq_or_lt_of_le h1 with he | hl
        · rwa [← he]
        · exact hret i hl (by omega)
      · rw [List.range'_succ, List.map_cons]
        show expectedWait (responses a) a :: (runAttempts responses (List.range' (a + 1) m)).2.1 = _
        rw [hws]
      · rcases hend with ⟨hkm, ho, hc⟩ | ⟨hkm, hnr, ho, hc⟩
        · refine Or.inl ⟨by omega, ho, ?_⟩
          show (runAttempts responses (List.range' (a + 1) m)).2.2 + 1 = m + 1
          rw [hc]
        · refine Or.inr ⟨by omega, ?_, ho, ?_⟩
          · have hik : a + (k + 1) = a + 1 + k := by omega
            rwa [hik]
          · show (runAttempts responses (List.range' (a + 1) m)).2.2 + 1 = k + 1 + 1
            rw [hc]
    · rw [runAttempts_cons_terminal responses a _ hr]
      obtain ⟨hne, hws, hc⟩ := terminalStep_shape (responses a)
      refine ⟨0, by omega, ?_, ?_, Or.inr ⟨by omega, by rwa [Nat.add_zero], hne, by rw [hc]⟩⟩
      · intro i h1 h2
        omega
      · rw [hws]
        rfl

/-- C4: the retry loop of `request_json` issues at most `max_retries` requests;
it retries exactly on 429 and 5xx responses, sleeping the Retry-After value on
a 429 with a digit header and `min(60, 2 to-the attempt)` otherwise; and when
all `max_retries` responses are retryable it ends in the RuntimeError instead
of returning. -/
theorem request_json_retry_spec (responses : Nat → Resp) (mr : Nat) :
    (request_json responses mr).2.2 ≤ mr ∧
    ((∀ i, 1 ≤ i → i ≤ mr → retryable (responses i)) →
      (request_json responses mr).1 = .retriesExhausted) ∧
    (∃ k, k ≤ mr ∧ (∀ i, 1 ≤ i → i < 1 + k → retryable (responses i)) ∧
      (request_json responses mr).2.1 =
        (List.range' 1 k).map (fun i => expectedWait (responses i) i) ∧
      (k = mr ∨ (¬retryable (responses (1 + k)) ∧
        (request_json responses mr).1 ≠ .retriesExhausted ∧
        (request_json responses mr).2.2 = k + 1))) := by
  obtain ⟨k, hk, hret, hws, hend⟩ := runAttempts_spec responses mr 1
  refine ⟨?_, ?_, k, hk, hret, hws, ?_⟩
  · rcases hend with ⟨hkm, ho, hc⟩ | ⟨hkm, hnr, ho, hc⟩
    · show (runAttempts responses (List.range' 1 mr)).2.2 ≤ mr
      omega
    · show (runAttempts responses (List.range' 1 mr)).2.2 ≤ mr
      omega
  · intro hall
    rcases hend with ⟨hkm, ho, hc⟩ | ⟨hkm, hnr, ho, hc⟩
    · exact ho
    · exact absurd (hall (1 + k) (by omega) (by omega)) hnr
  · rcases hend with ⟨hkm, ho, hc⟩ | ⟨hkm, hnr, ho, hc⟩
    · exact Or.inl hkm
    · exact Or.inr ⟨hnr, ho, hc⟩

theorem runAttempts_outcome_at (responses : Nat → Resp) :
    ∀ (m a j : Nat), a ≤ j → j < a + m →
      (∀ i, a ≤ i → i < j → retryable (responses i)) →
      ¬retryable (responses j) →
      (runAttempts responses (List.range' a m)).1 = (terminalStep (responses j)).1 := by
  intro m
  induction m with
  | zero =>
    intro a j h1 h2 h3 h4
    omega
  | succ m ih =>
    intro a j h1 h2 h3 h4
    rw [List.range'_succ]
    rcases Nat.eq_or_lt_of_le h1 with he | hl
    · rw [← he] at h4
      rw [runAttempts_cons_terminal responses a _ h4, he]
    · have hra : retryable (responses a) := h3 a (le_refl a) hl
      rw [runAttempts_cons_retry responses a _ hra]
      exact ih (a + 1) j hl (by omega) (fun i hi1 hi2 => h3 i (by omega) hi2) h4

/-- C5: when the loop reaches a successful (2xx) response, `request_json`
ends in the ValueError carrying the lower-cased content type exactly when that
content type does not contain the substring json, and otherwise returns the
response body. -/
theorem request_json_content_type_spec (responses : Nat → Resp) (mr j : Nat)
    (hj1 : 1 ≤ j) (hj2 : j ≤ mr)
    (hpre : ∀ i, 1 ≤ i → i < j → retryable (responses i))
    (h2xx : 200 ≤ (responses j).status ∧ (responses j).status < 300) :
    ((request_json responses mr).1 =
        .valueError (lowerS ((responses j).content_type.getD "")) ↔
      containsS (lowerS ((responses j).content_type.getD "")) "json" = false) ∧
    (containsS (lowerS ((responses j).content_type.getD "")) "json" = true →
      (request_json responses mr).1 = .ok (responses j).body) := by
  have hnr : ¬retryable (responses j) := by
    unfold retryable
    omega
  have houtcome : (request_json responses mr).1 = (terminalStep (responses j)).1 :=
    runAttempts_outcome_at responses mr 1 j hj1 (by omega) hpre hnr
  have h4 : ¬(400 ≤ (responses j).status ∧ (responses j).status < 600) := by omega
  rw [houtcome]
  unfold terminalStep
  rw [if_neg h4]
  by_cases hct : containsS (lowerS ((responses j).content_type.getD "")) "json" = true
  · have hb : ¬((!containsS (lowerS ((responses j).content_type.getD "")) "json") = true) := by
      rw [hct]
      simp
    rw [if_neg hb]
    constructor
    · constructor
      · intro habs
        exact absurd habs (by simp)
      · intro hfalse
        rw [hct] at hfalse
        exact absurd hfalse (by simp)
    · intro _
      rfl
  · have hcf : containsS (lowerS ((responses j).content_type.getD "")) "json" = false := by
      rw [← Bool.not_eq_true]
      exact hct
    have hb : (!containsS (lowerS ((responses j).content_type.getD "")) "json") = true := by
      rw [hcf]
      rfl
    rw [if_pos hb]
    constructor
    · constructor
      · intro _
        exact hcf
      · intro _
        rfl
    · intro hcontra
      exact absurd hcontra hct

/-- `norm_spaces` (src/sfa_tracker2.py lines 119-120): collapse each
whitespace run to a single space, then strip.  The flag records whether the
previous character was part of a whitespace run. -/
def collapseWsAux : Bool → List Char → List Char
  | _, [] => []
  | prevWs, c :: rest =>
    if isSpaceC c then
      (if prevWs then [] else [' ']) ++ collapseWsAux true rest
    else c :: collapseWsAux false rest

/-- Python `str.strip` after whitespace collapsing (only spaces remain). -/
def norm_spaces (s : String) : String :=
  String.mk (((collapseWsAux false s.data).dropWhile
    (fun c => c == ' ')).reverse.dropWhile (fun c => c == ' ') |>.reverse)

/-- Python `x or default` for optional strings (`None` and empty are falsy). -/
def orDefault (o : Option String) (dflt : String) : String :=
  match o with
  | some s => if s = "" then dflt else s
  | none => dflt

/-- `safe_int` (src/sfa_tracker2.py lines 112-116) on the JSON value space in
scope, modelled as an optional integer. -/
def safe_int (o : Option Int) (dflt : Int) : Int := o.getD dflt

/-- One child `data` dict of a search response, with the fields the code
reads; absent keys are `none`. -/
structure RawPost where
  id : Option String
  name : Option String
  subreddit : Option String
  created_utc : Option Int
  title : Option String
  permalink : Option String
  url : Option String
  author : Option String
  score : Option Int
  num_comments : Option Int
deriving DecidableEq

/-- Building one `Post` from a child dict (src/sfa_tracker2.py lines 268-289).
`iso` abstracts `datetime.fromtimestamp(..., tz=utc).isoformat()`. -/
def postOfChild (cfg : Config) (iso : Int → String) (sr : String) (c : RawPost)
    (pid : String) : Post :=
  { id := pid,
    name := orDefault c.name ("t3_" ++ pid),
    subreddit := orDefault c.subreddit sr,
    created_utc := safe_int c.created_utc 0,
    created_iso := if safe_int c.created_utc 0 ≠ 0 then iso (safe_int c.created_utc 0) else "",
    title := norm_spaces (orDefault c.title ""),
    permalink := "https://www.reddit.com" ++ orDefault c.permalink "",
    url := orDefault c.url "",
    author := orDefault c.author "",
    score := safe_int c.score 0,
    num_comments := safe_int c.num_comments 0,
    episode_code := extract_episode_code (orDefault c.title ""),
    is_trailer := looks_like_trailer cfg (orDefault c.title "") }

/-- The per-child step of the fetch loop (src/sfa_tracker2.py lines 261-289):
skip children with a falsy or already-seen id, otherwise record the id and
append the built post. -/
def childStep (cfg : Config) (iso : Int → String) (sr : String)
    (st : List String × List Post) (c : RawPost) : List String × List Post :=
  match c.id with
  | none => st
  | some pid =>
    if pid = "" then st
    else if pid ∈ st.1 then st
    else (pid :: st.1, st.2 ++ [postOfChild cfg iso sr c pid])

/-- One subreddit-term batch: the subreddit queried and the children returned. -/
def processBatch (cfg : Config) (iso : Int → String)
    (st : List String × List Post) (b : String × List RawPost) :
    List String × List Post :=
  b.2.foldl (childStep cfg iso b.1) st

/-- The state after iterating all batches of a run, starting from an empty
seen-set and post list. -/
def buildState (cfg : Config) (iso : Int → String)
    (batches : List (String × List RawPost)) : List String × List Post :=
  batches.foldl (processBatch cfg iso) ([], [])

/-- The accumulated post list of a run, before the final sort. -/
def buildPosts (cfg : Config) (iso : Int → String)
    (batches : List (String × List RawPost)) : List Post :=
  (buildState cfg iso batches).2

/-- All children of a run in iteration order, each paired with its subreddit. -/
def flatChildren (batches : List (String × List RawPost)) : List (String × RawPost) :=
  batches.flatMap (fun b => b.2.map (fun c => (b.1, c)))

/-- The child step over subreddit-paired children. -/
def flatStep (cfg : Config) (iso : Int → String)
    (st : List String × List Post) (sc : String × RawPost) : List String × List Post :=
  childStep cfg iso sc.1 st sc.2

/-- The descending created-time comparison realised by
`posts.sort(key=lambda p: p.created_utc, reverse=True)`. -/
def createdGE (p q : Post) : Prop := q.created_utc ≤ p.created_utc

instance : DecidableRel createdGE := fun p q => by
  unfold createdGE
  infer_instance

instance : IsTotal Post createdGE where
  total p q := by
    unfold createdGE
    omega

instance : IsTrans Post createdGE where
  trans p q r h1 h2 := by
    unfold createdGE at *
    omega

/-- `fetch_search_posts` (src/sfa_tracker2.py lines 238-294) as a function of
the configuration, the datetime renderer, and the sequence of search
responses: accumulate deduplicated posts, then sort newest-first with
Python's stable sort. -/
def fetch_search_posts (cfg : Config) (iso : Int → String)
    (batches : List (String × List RawPost)) : List Post :=
  List.insertionSort createdGE (buildPosts cfg iso batches)

theorem buildState_eq_flat (cfg : Config) (iso : Int → String) :
    ∀ (batches : List (String × List RawPost)) (st : List String × List Post),
      batches.foldl (processBatch cfg iso) st =
        (flatChildren batches).foldl (flatStep cfg iso) st := by
  intro batches
  induction batches with
  | nil =>
    intro st
    rfl
  | cons b bs ih =>
    intro st
    rw [List.foldl_cons]
    have hb : processBatch cfg iso st b =
        (b.2.map (fun c => (b.1, c))).foldl (flatStep cfg iso) st := by
      unfold processBatch
      rw [List.foldl_map]
      rfl
    rw [hb, ih]
    show _ = (flatChildren (b :: bs)).foldl (flatStep cfg iso) st
    unfold flatChildren
    rw [List.flatMap_cons, List.foldl_append]

theorem flatStep_cases (cfg : Config) (iso : Int → String)
    (st : List String × List Post) (sc : String × RawPost) :
    (flatStep cfg iso st sc = st ∧ ∀ s, sc.2.id = some s → s = "" ∨ s ∈ st.1) ∨
    (∃ pid, sc.2.id = some pid ∧ pid ≠ "" ∧ pid ∉ st.1 ∧
      flatStep cfg iso st sc = (pid :: st.1, st.2 ++ [postOfChild cfg iso sc.1 sc.2 pid]) ∧
      (postOfChild cfg iso sc.1 sc.2 pid).id = pid) := by
  unfold flatStep childStep
  cases hid : sc.2.id with
  | none =>
    refine Or.inl ⟨rfl, ?_⟩
    intro s hs
    cases hs
  | some pid =>
    dsimp only
    by_cases hemp : pid = ""
    · rw [if_pos hemp]
      refine Or.inl ⟨rfl, ?_⟩
      intro s hs
      injection hs with h
      exact Or.inl (h ▸ hemp)
    · rw [if_neg hemp]
      by_cases hmem : pid ∈ st.1
      · rw [if_pos hmem]
        refine Or.inl ⟨rfl, ?_⟩
        intro s hs
        injection hs with h
        exact Or.inr (h ▸ hmem)
      · rw [if_neg hmem]
        exact Or.inr ⟨pid, rfl, hemp, hmem, rfl, rfl⟩

theorem flatFold_nodup (cfg : Config) (iso : Int → String) :
    ∀ (l : List (String × RawPost)) (seen : List String) (acc : List Post),
      (∀ p ∈ acc, p.id ∈ seen) → (acc.map Post.id).Nodup →
      (∀ p ∈ (l.foldl (flatStep cfg iso) (seen, acc)).2,
          p.id ∈ (l.foldl (flatStep cfg iso) (seen, acc)).1) ∧
      ((l.foldl (flatStep cfg iso) (seen, acc)).2.map Post.id).Nodup := by
  intro l
  induction l with
  | nil =>
    intro seen acc h1 h2
    exact ⟨h1, h2⟩
  | cons sc rest ih =>
    intro seen acc h1 h2
    rw [List.foldl_cons]
    rcases flatStep_cases cfg iso (seen, acc) sc with ⟨heq, _⟩ |
      ⟨pid, hid, hemp, hmem, heq, hpostid⟩
    · rw [heq]
      exact ih seen acc h1 h2
    · rw [heq]
      apply ih
      · intro p hp
        rcases List.mem_append.mp hp with hpa | hpn
        · exact List.mem_cons_of_mem _ (h1 p hpa)
        · rw [List.mem_singleton] at hpn
          rw [hpn, hpostid]
          exact List.mem_cons_self _ _
      · rw [List.map_append, List.nodup_append]
        refine ⟨h2, by simp, ?_⟩
        intro x hx hx2
        simp only [List.map_cons, List.map_nil, List.mem_singleton] at hx2
        rw [hpostid] at hx2
        rcases List.mem_map.mp hx with ⟨q, hq, hqid⟩
        have hqs : q.id ∈ seen := h1 q hq
        rw [hqid, hx2] at hqs
        exact hmem hqs

theorem flatFold_firstocc (cfg : Config) (iso : Int → String) :
    ∀ (l : List (String × RawPost)) (seen : List String) (acc : List Post) (p : Post),
      p ∈ (l.foldl (flatStep cfg iso) (seen, acc)).2 →
      p ∈ acc ∨ (p.id ∉ seen ∧ p.id ≠ "" ∧
        ∃ sc, l.find? (fun x => x.2.id == some p.id) = some sc ∧
          p = postOfChild cfg iso sc.1 sc.2 p.id) := by
  intro l
  induction l with
  | nil =>
    intro seen acc p hp
    exact Or.inl hp
  | cons sc rest ih =>
    intro seen acc p hp
    rw [List.foldl_cons] at hp
    rcases flatStep_cases cfg iso (seen, acc) sc with ⟨heq, hwhy⟩ |
      ⟨pid, hid, hemp, hmem, heq, hpostid⟩
    · rw [heq] at hp
      rcases ih seen acc p hp with hL | ⟨hns, hne, sc2, hfind, hpeq⟩
      · exact Or.inl hL
      · refine Or.inr ⟨hns, hne, sc2, ?_, hpeq⟩
        have hpred : ¬(sc.2.id == some p.id) = true := by
          intro hpred
          have hideq : sc.2.id = some p.id := beq_iff_eq.mp hpred
          rcases hwhy p.id hideq with h0 | h0
          · exact hne h0
          · exact hns h0
        have hstep : List.find? (fun x => x.2.id == some p.id) (sc :: rest) =
            List.find? (fun x => x.2.id == some p.id) rest :=
          List.find?_cons_of_neg rest hpred
        rw [hstep]
        exact hfind
    · rw [heq] at hp
      rcases ih (pid :: seen) (acc ++ [postOfChild cfg iso sc.1 sc.2 pid]) p hp with
        hL | ⟨hns, hne, sc2, hfind, hpeq⟩
      · rcases List.mem_append.mp hL with hpa | hpn
        · exact Or.inl hpa
        · rw [List.mem_singleton] at hpn
          refine Or.inr ⟨?_, ?_, sc, ?_, ?_⟩
          · rw [hpn, hpostid]
            exact hmem
          · rw [hpn, hpostid]
            exact hemp
          · refine List.find?_cons_of_pos _ ?_
            show (sc.2.id == some p.id) = true
            rw [hpn, hpostid, hid]
            exact beq_iff_eq.mpr rfl
          · rw [hpn, hpostid]
      · have hpidne : p.id ≠ pid := by
          intro hc
          exact hns (hc ▸ List.mem_cons_self pid seen)
        refine Or.inr ⟨fun hc => hns (List.mem_cons_of_mem _ hc), hne, sc2, ?_, hpeq⟩
        have hpred : ¬(sc.2.id == some p.id) = true := by
          intro hpred
          have hideq : sc.2.id = some p.id := beq_iff_eq.mp hpred
          rw [hid] at hideq
          injection hideq with h
          exact hpidne h.symm
        have hstep : List.find? (fun x => x.2.id == some p.id) (sc :: rest) =
            List.find? (fun x => x.2.id == some p.id) rest :=
          List.find?_cons_of_neg rest hpred
        rw [hstep]
        exact hfind

/-- C6: within one run the posts accumulated by `fetch_search_posts` have
pairwise-distinct ids; every kept post stems from the first child in
iteration order bearing its (non-empty) id, so duplicates and id-less
results are skipped; and the returned list is a permutation of the
accumulated one. -/
theorem fetch_search_posts_dedup_spec (cfg : Config) (iso : Int → String)
    (batches : List (String × List RawPost)) :
    ((buildPosts cfg iso batches).map Post.id).Nodup ∧
    (∀ p ∈ buildPosts cfg iso batches, p.id ≠ "" ∧
      ∃ sc, (flatChildren batches).find? (fun x => x.2.id == some p.id) = some sc ∧
        p = postOfChild cfg iso sc.1 sc.2 p.id) ∧
    (fetch_search_posts cfg iso batches).Perm (buildPosts cfg iso batches) := by
  have hflat : buildState cfg iso batches =
      (flatChildren batches).foldl (flatStep cfg iso) ([], []) :=
    buildState_eq_flat cfg iso batches ([], [])
  refine ⟨?_, ?_, ?_⟩
  · have h := flatFold_nodup cfg iso (flatChildren batches) [] []
      (by intro p hp; cases hp) (by simp)
    unfold buildPosts
    rw [hflat]
    exact h.2
  · intro p hp
    unfold buildPosts at hp
    rw [hflat] at hp
    rcases flatFold_firstocc cfg iso (flatChildren batches) [] [] p hp with
      hL | ⟨_, hne, sc, hfind, hpeq⟩
    · cases hL
    · exact ⟨hne, sc, hfind, hpeq⟩
  · exact List.perm_insertionSort createdGE _

/-- C10 (amended): the list returned by `fetch_search_posts` is sorted by
`created_utc` in non-increasing order. -/
theorem fetch_search_posts_sorted (cfg : Config) (iso : Int → String)
    (batches : List (String × List RawPost)) :
    List.Sorted createdGE (fetch_search_posts cfg iso batches) :=
  List.sorted_insertionSort createdGE _

/-- C1: the claim says a title whose first match is the season-x-episode
pattern yields the combined season/episode code.  The code instead lower-cases
the pattern string before searching for the mixed-case literal `[xX]`
(src/sfa_tracker2.py line 148), so EP_PATTERNS[0] is never classified as a
season/episode pattern and the title `1x02` yields the episode-only code
`E01` built from the season digits, contradicting the function's docstring. -/
theorem extract_episode_code_season_x_bug :
    isSeasonEpPattern pat1String = false ∧ extract_episode_code "1x02" = some "E01" :=
  ⟨by decide, by decide⟩

/-- C2: the title `S01E02 Discussion` yields the episode code `1x02`. -/
theorem extract_episode_code_s01e02 :
    extract_episode_code "S01E02 Discussion" = some "1x02" := by
  decide

/-- C3: a title matched by neither the season-x-episode pattern nor the SnnEnn
pattern but matched by the episode-only pattern with digit group `g` yields
the zero-padded episode-only code. -/
theorem extract_episode_code_episode_only (t : String) (g : List Char)
    (h1 : searchP1 t.data = none) (h2 : searchP2 t.data = none)
    (h3 : searchP3 t.data = some g) :
    extract_episode_code t = some ("E" ++ pad2 (digitsToNat g)) := by
  unfold extract_episode_code
  rw [h1, h2, h3]
  dsimp only
  have hfalse : isSeasonEpPattern pat3String = false := by decide
  rw [hfalse]
  rfl

/-- C3 witness at the title `Episode 3`. -/
theorem extract_episode_code_episode_only_witness :
    searchP3 ("Episode 3").data = some ['3'] ∧
    extract_episode_code "Episode 3" = some "E03" := by
  refine ⟨by decide, ?_⟩
  have h := extract_episode_code_episode_only "Episode 3" ['3']
    (by decide) (by decide) (by decide)
  rw [h]
  decide

/-- A 429 response with no Retry-After header, for the C4 witness. -/
def demo429 : Resp := { status := 429, retry_after := none, content_type := none, body := "" }

/-- C4 witness: two straight 429 responses exhaust a two-attempt budget. -/
theorem request_json_retry_spec_witness :
    (request_json (fun _ => demo429) 2).1 = .retriesExhausted := by
  apply (request_json_retry_spec (fun _ => demo429) 2).2.1
  intro i h1 h2
  exact Or.inl rfl

/-- A successful response with a non-JSON content type, for the C5 witness. -/
def demoHtml : Resp :=
  { status := 200, retry_after := none, content_type := some "text/HTML", body := "payload" }

/-- C5 witness: a 200 response with content type `text/HTML` ends in the
ValueError carrying the lower-cased content type. -/
theorem request_json_content_type_spec_witness :
    (request_json (fun _ => demoHtml) 5).1 = .valueError "text/html" := by
  have h := (request_json_content_type_spec (fun _ => demoHtml) 5 1 (by omega) (by omega)
    (fun i hi1 hi2 => absurd hi1 (by omega)) ⟨by decide, by decide⟩).1
  exact h.mpr (by decide)

/-- A demo configuration for the fetch-model witnesses. -/
def demoCfg : Config := { show_name := "Demo Show", query_terms := [] }

/-- A demo datetime renderer. -/
def demoIso : Int → String := fun _ => "ts"

/-- A child with id aaa. -/
def demoChildA : RawPost :=
  { id := some "aaa", name := none, subreddit := none, created_utc := some 5,
    title := none, permalink := none, url := none, author := none,
    score := none, num_comments := none }

/-- A child with id bbb and the same creation time as aaa. -/
def demoChildB : RawPost :=
  { id := some "bbb", name := none, subreddit := none, created_utc := some 5,
    title := none, permalink := none, url := none, author := none,
    score := none, num_comments := none }

/-- One run fetching aaa before bbb. -/
def demoBatches1 : List (String × List RawPost) := [("television", [demoChildA, demoChildB])]

/-- The same children fetched in the opposite order. -/
def demoBatches2 : List (String × List RawPost) := [("television", [demoChildB, demoChildA])]

/-- C6 witness: the ids accumulated from the demo run are pairwise distinct. -/
theorem fetch_search_posts_dedup_spec_witness :
    ((buildPosts demoCfg demoIso demoBatches1).map Post.id).Nodup :=
  (fetch_search_posts_dedup_spec demoCfg demoIso demoBatches1).1

/-- C10 counterexample: the two demo runs iterate the same children (as a
permutation) yet return differently ordered post lists, because the posts
share `created_utc` and the stable sort keeps fetch order: the fetch order
does leak into the output order. -/
theorem fetch_order_leak_cex :
    (flatChildren demoBatches1).Perm (flatChildren demoBatches2) ∧
    fetch_search_posts demoCfg demoIso demoBatches1 ≠
      fetch_search_posts demoCfg demoIso demoBatches2 := by
  refine ⟨by decide, by decide⟩

/-- C10 witness: the demo run output is sorted by created time, newest first. -/
theorem fetch_search_posts_sorted_witness :
    List.Sorted createdGE (fetch_search_posts demoCfg demoIso demoBatches2) :=
  fetch_search_posts_sorted demoCfg demoIso demoBatches2

/-- A trailer-flagged demo post for the selection witnesses. -/
def demoTrailer : Post :=
  { id := "t1", name := "t3_t1", subreddit := "television", created_utc := 0,
    created_iso := "", title := "Demo Show official trailer", permalink := "",
    url := "", author := "", score := 3, num_comments := 7,
    episode_code := none, is_trailer := true }

/-- C7 witness: on a singleton trailer list, the picked post is that trailer
and it dominates every trailer-flagged post. -/
theorem pick_trailer_spec_witness :
    demoTrailer ∈ [demoTrailer] ∧ demoTrailer.is_trailer = true ∧
      ∀ q ∈ [demoTrailer], q.is_trailer = true → lexLE (keyPair q) (keyPair demoTrailer) :=
  (pick_trailer_spec [demoTrailer]).2 demoTrailer (by decide)

/-- C8 witness: the demo selection keeps at most one post. -/
theorem pick_other_posts_spec_witness :
    (pick_other_posts [demoTrailer] 1).length ≤ 1 :=
  (pick_other_posts_spec [demoTrailer] 1).1

/-- C9 witness: appending one post to an existing file keeps the prior content
as a prefix. -/
theorem append_history_spec_witness :
    append_history "t0" [demoTrailer] (some "prior\r\n") =
      "prior\r\n" ++ String.join ([demoTrailer].map (historyRow "t0")) :=
  (append_history_spec "t0" [demoTrailer]).1 "prior\r\n"

end SFA
